import Mathlib

/-!
Shallow embedding of the "Battle Royale Chess" game-state engine
(src/src/utils/chessLogic.ts, gameLogic.ts, powerupLogic.ts,
transformationLogic.ts, and the respawnLogic / shrinkLogic modules),
together with theorems settling the frozen claims about it.

JavaScript `Math.random()` and `Date.now()` calls are externalized as
explicit numeric parameters, following the design note of the spec that
all randomness sources are isolated behind an explicit seedable interface.
-/

set_option maxRecDepth 4000

/-- src/src/types/chess.ts: `PieceType`. -/
inductive PieceType where
  | king | queen | rook | bishop | knight | pawn
deriving DecidableEq, Repr

/-- src/src/types/chess.ts: `PieceColor`. -/
inductive PieceColor where
  | white | black
deriving DecidableEq, Repr

/-- src/src/types/chess.ts: `Position` (JS numbers; Int so that
off-board coordinates built by ring searches are representable). -/
structure Pos where
  row : Int
  col : Int
deriving DecidableEq, Repr

/-- src/src/types/chess.ts: `'fusion' | 'veteran'`. -/
inductive TransKind where
  | fusion | veteran
deriving DecidableEq, Repr

/-- src/src/types/chess.ts: `ChessPiece`.  Optional TS fields are carried
with their falsy defaults (`undefined` counts as `false` / `0` / `[]`). -/
structure ChessPiece where
  type : PieceType
  color : PieceColor
  id : String
  hasMoved : Bool := false
  turnsWithoutMoving : Nat := 0
  isTransformed : Bool := false
  transformationType : Option TransKind := none
  fusionMoves : List PieceType := []
  isTeleporting : Bool := false
  isEmergency : Bool := false
deriving DecidableEq, Repr

/-- src/src/types/chess.ts: power-up kinds. -/
inductive PowerUpType where
  | teleport | shield | extraMove | trap
deriving DecidableEq, Repr

/-- src/src/types/chess.ts: `PowerUp`. -/
structure PowerUp where
  id : String
  type : PowerUpType
  position : Pos
  turnsUntilDespawn : Int
deriving DecidableEq, Repr

/-- src/src/types/chess.ts: `ShrinkBlock`. -/
structure ShrinkBlock where
  position : Pos
  turnsUntilShrink : Int
  isWarning : Bool
deriving DecidableEq, Repr

/-- src/src/types/chess.ts: `gamePhase` values. -/
inductive GamePhase where
  | setup | playing | shrinking | gameOver
deriving DecidableEq, Repr

/-- src/src/types/chess.ts: `winner: PieceColor | 'draw' | null`
(the `Option` around it models `null`). -/
inductive Winner where
  | color (c : PieceColor)
  | draw
deriving DecidableEq, Repr

/-- `Map<PieceColor, PowerUp | null>`: the map is created with exactly the
two color keys and only ever updated at those keys, so it is a pair of
optional power-ups. -/
structure PlayerPowerUps where
  white : Option PowerUp
  black : Option PowerUp
deriving DecidableEq, Repr

/-- Read the held power-up of a color (`playerPowerUps.get(player)`). -/
def PlayerPowerUps.get (m : PlayerPowerUps) (c : PieceColor) : Option PowerUp :=
  match c with
  | .white => m.white
  | .black => m.black

/-- Update the held power-up of a color (`playerPowerUps.set(player, v)`). -/
def PlayerPowerUps.set (m : PlayerPowerUps) (c : PieceColor) (v : Option PowerUp) :
    PlayerPowerUps :=
  match c with
  | .white => { m with white := v }
  | .black => { m with black := v }

/-- `respawnQueue` entries: `{ player: PieceColor; piece: ChessPiece }`. -/
structure RespawnEntry where
  player : PieceColor
  piece : ChessPiece
deriving DecidableEq, Repr

/-- The 8×8 board: `(ChessPiece | null)[][]`. -/
abbrev Board := List (List (Option ChessPiece))

/-- src/src/types/chess.ts: `Move`.  (`from` is a Lean keyword, hence
`fromPos` / `toPos`.) -/
structure Move where
  fromPos : Pos
  toPos : Pos
  piece : ChessPiece
  captured : Option ChessPiece := none
  usedPowerUp : Option PowerUp := none
deriving DecidableEq, Repr

/-- src/src/types/chess.ts: `GameState`. -/
structure GameState where
  board : Board
  currentPlayer : PieceColor
  gamePhase : GamePhase
  winner : Option Winner
  shrunkSquares : Finset String
  capturedPieces : List ChessPiece
  turnCount : Nat
  timeUntilShrink : Int
  timeUntilRespawn : Int
  powerUps : List PowerUp
  shrinkBlocks : List ShrinkBlock
  playerPowerUps : PlayerPowerUps
  respawnQueue : List RespawnEntry
  trapSquares : Finset String
  shieldedPieces : Finset String
deriving DecidableEq

/-- src/src/utils/chessLogic.ts `isValidPosition`. -/
def isValidPosition (pos : Pos) : Bool :=
  decide (0 ≤ pos.row ∧ pos.row < 8 ∧ 0 ≤ pos.col ∧ pos.col < 8)

/-- `board[row][col]` on an in-range position; out-of-range reads give
`none` (the source always bounds-checks before indexing). -/
def bget (b : Board) (p : Pos) : Option ChessPiece :=
  if isValidPosition p then
    (List.getD b p.row.toNat []).getD p.col.toNat none
  else none

/-- `board[row][col] = v` on an in-range position; the source never
writes out of range. -/
def bset (b : Board) (p : Pos) (v : Option ChessPiece) : Board :=
  if isValidPosition p then
    List.set b p.row.toNat ((List.getD b p.row.toNat []).set p.col.toNat v)
  else b

/-- An actual 8×8 grid, as produced by `createInitialBoard` and preserved
by every board update in the source. -/
def Board.WF (b : Board) : Prop :=
  b.length = 8 ∧ ∀ r ∈ b, r.length = 8

instance : DecidablePred Board.WF := by
  intro b; unfold Board.WF; infer_instance

/-- Row-major list of the 64 board squares, the iteration order of every
`for (row) for (col)` scan in the source. -/
def allSquares : List Pos :=
  (List.range 8).flatMap (fun r => (List.range 8).map (fun c => ⟨(r : Int), (c : Int)⟩))

-- ---------------------------------------------------------------------
-- List indexing lemmas for the board representation
-- ---------------------------------------------------------------------

theorem getD_set_self {α : Type} (l : List α) (i : Nat) (h : i < l.length) (v d : α) :
    (l.set i v).getD i d = v := by
  induction l generalizing i with
  | nil => simp at h
  | cons a t ih =>
    cases i with
    | zero => simp [List.set, List.getD]
    | succ n =>
      simp only [List.set, List.getD_cons_succ]
      exact ih n (by simpa using h)

theorem getD_set_ne {α : Type} (l : List α) (i j : Nat) (h : i ≠ j) (v : α) (d : α) :
    (l.set i v).getD j d = l.getD j d := by
  induction l generalizing i j with
  | nil => simp
  | cons a t ih =>
    cases i with
    | zero =>
      cases j with
      | zero => exact absurd rfl h
      | succ m => simp [List.set]
    | succ n =>
      cases j with
      | zero => simp [List.set]
      | succ m =>
        simp only [List.set, List.getD_cons_succ]
        exact ih n m (fun hnm => h (by simp [hnm]))

theorem mem_of_mem_set {α : Type} (l : List α) (i : Nat) (v : α) (r : α)
    (h : r ∈ l.set i v) : r ∈ l ∨ r = v := by
  induction l generalizing i with
  | nil => simp at h
  | cons a t ih =>
    cases i with
    | zero =>
      simp only [List.set] at h
      rcases List.mem_cons.mp h with h | h
      · exact Or.inr h
      · exact Or.inl (List.mem_cons_of_mem a h)
    | succ n =>
      simp only [List.set] at h
      rcases List.mem_cons.mp h with h | h
      · exact Or.inl (h ▸ List.mem_cons_self a t)
      · rcases ih n h with h | h
        · exact Or.inl (List.mem_cons_of_mem a h)
        · exact Or.inr h

theorem getD_mem_of_lt {α : Type} (l : List α) (i : Nat) (d : α)
    (h : i < l.length) : l.getD i d ∈ l := by
  induction l generalizing i with
  | nil => simp at h
  | cons a t ih =>
    cases i with
    | zero => simp [List.getD]
    | succ n =>
      simp only [List.getD_cons_succ]
      exact List.mem_cons_of_mem a (ih n (by simpa using h))

theorem set_oob {α : Type} (l : List α) (i : Nat) (v : α) (h : l.length ≤ i) :
    l.set i v = l := by
  induction l generalizing i with
  | nil => simp
  | cons a t ih =>
    cases i with
    | zero => simp at h
    | succ n => simp only [List.set]; rw [ih n (by simpa using h)]

/-- `bset` keeps the board an 8×8 grid. -/
theorem WF_bset (b : Board) (p : Pos) (v : Option ChessPiece) (hb : Board.WF b) :
    Board.WF (bset b p v) := by
  unfold bset
  split
  · rcases Nat.lt_or_ge p.row.toNat b.length with hlt | hge
    · refine ⟨by simpa using hb.1, ?_⟩
      intro r hr
      rcases mem_of_mem_set _ _ _ _ hr with h | h
      · exact hb.2 r h
      · subst h
        rw [List.length_set]
        exact hb.2 _ (getD_mem_of_lt b _ [] hlt)
    · rw [set_oob b _ _ hge]; exact hb
  · exact hb

theorem toNat_pair_inj (p q : Pos) (hp : isValidPosition p = true)
    (hq : isValidPosition q = true) (hne : p ≠ q) :
    p.row.toNat ≠ q.row.toNat ∨ p.col.toNat ≠ q.col.toNat := by
  unfold isValidPosition at hp hq
  simp only [decide_eq_true_eq] at hp hq
  by_contra hcon
  push_neg at hcon
  obtain ⟨h1, h2⟩ := hcon
  apply hne
  have hr : p.row = q.row := by omega
  have hc : p.col = q.col := by omega
  cases p; cases q
  simp_all

/-- Reading back the square just written. -/
theorem bget_bset_same (b : Board) (p : Pos) (v : Option ChessPiece)
    (hb : Board.WF b) (hp : isValidPosition p = true) :
    bget (bset b p v) p = v := by
  have hp' := hp
  unfold isValidPosition at hp'
  simp only [decide_eq_true_eq] at hp'
  unfold bget bset
  rw [if_pos hp, if_pos hp]
  have hrow : p.row.toNat < b.length := by rw [hb.1]; omega
  rw [getD_set_self b p.row.toNat hrow]
  apply getD_set_self
  rw [hb.2 _ (getD_mem_of_lt b _ [] hrow)]
  omega

/-- Writes elsewhere do not change a square. -/
theorem bget_bset_ne (b : Board) (p q : Pos) (v : Option ChessPiece)
    (hne : p ≠ q) : bget (bset b p v) q = bget b q := by
  unfold bget bset
  by_cases hp : isValidPosition p = true
  · rw [if_pos hp]
    by_cases hq : isValidPosition q = true
    · rw [if_pos hq, if_pos hq]
      rcases toNat_pair_inj p q hp hq hne with h | h
      · rw [getD_set_ne _ _ _ h]
      · by_cases hrow : p.row.toNat = q.row.toNat
        · rw [hrow]
          by_cases hlen : q.row.toNat < b.length
          · rw [getD_set_self b q.row.toNat hlen, getD_set_ne _ _ _ h]
          · rw [set_oob b q.row.toNat _ (le_of_not_lt hlen)]
        · rw [getD_set_ne _ _ _ hrow]
    · rw [if_neg hq, if_neg hq]
  · rw [if_neg hp]

-- ---------------------------------------------------------------------
-- src/src/utils/chessLogic.ts
-- ---------------------------------------------------------------------

/-- src/src/utils/chessLogic.ts `PIECE_VALUES`. -/
def PIECE_VALUES : PieceType → Int
  | .pawn => 1
  | .knight => 3
  | .bishop => 3
  | .rook => 5
  | .queen => 9
  | .king => 100

/-- src/src/utils/chessLogic.ts `positionKey`: the canonical `"row-col"`
string key of a square. -/
def positionKey (pos : Pos) : String :=
  toString pos.row ++ "-" ++ toString pos.col

/-- The while loop of `isPathClear`, with fuel.  The validators only call
it on straight or diagonal lines between in-range squares, which take at
most 7 steps, so fuel 16 never runs out on reachable calls. -/
def pathClearAux (board : Board) (toPos : Pos) (dy dx : Int) :
    Nat → Pos → Bool
  | 0, _ => true
  | n + 1, cur =>
    if cur.row = toPos.row ∧ cur.col = toPos.col then true
    else if (bget board cur).isSome then false
    else pathClearAux board toPos dy dx n ⟨cur.row + dy, cur.col + dx⟩

/-- src/src/utils/chessLogic.ts `isPathClear`. -/
def isPathClear (board : Board) (fromPos toPos : Pos) : Bool :=
  let dx := Int.sign (toPos.col - fromPos.col)
  let dy := Int.sign (toPos.row - fromPos.row)
  pathClearAux board toPos dy dx 16 ⟨fromPos.row + dy, fromPos.col + dx⟩

/-- src/src/utils/chessLogic.ts `isValidRookMove`. -/
def isValidRookMove (board : Board) (fromPos toPos : Pos) (dx dy : Int) : Bool :=
  if dx ≠ 0 ∧ dy ≠ 0 then false
  else isPathClear board fromPos toPos

/-- src/src/utils/chessLogic.ts `isValidBishopMove`. -/
def isValidBishopMove (board : Board) (fromPos toPos : Pos) (dx dy : Int) : Bool :=
  if dx.natAbs ≠ dy.natAbs then false
  else isPathClear board fromPos toPos

/-- src/src/utils/chessLogic.ts `isValidQueenMove`. -/
def isValidQueenMove (board : Board) (fromPos toPos : Pos) (dx dy : Int) : Bool :=
  if dx = 0 ∨ dy = 0 ∨ dx.natAbs = dy.natAbs then isPathClear board fromPos toPos
  else false

/-- src/src/utils/chessLogic.ts `isValidKingMove`. -/
def isValidKingMove (dx dy : Int) : Bool :=
  decide (dx.natAbs ≤ 1 ∧ dy.natAbs ≤ 1 ∧ (dx ≠ 0 ∨ dy ≠ 0))

/-- src/src/utils/chessLogic.ts `isValidKnightMove`. -/
def isValidKnightMove (dx dy : Int) : Bool :=
  decide ((dx.natAbs = 2 ∧ dy.natAbs = 1) ∨ (dx.natAbs = 1 ∧ dy.natAbs = 2))

/-- src/src/utils/chessLogic.ts `isValidPawnMove`. -/
def isValidPawnMove (board : Board) (piece : ChessPiece)
    (fromPos toPos : Pos) (dx dy : Int) : Bool :=
  let direction : Int := if piece.color = .white then -1 else 1
  let target := bget board toPos
  if dx = 0 ∧ target.isSome = true then false
  else if dx = 0 ∧ dy = direction then true
  else if dx = 0 ∧ dy = 2 * direction ∧ piece.hasMoved = false ∧
      (bget board ⟨fromPos.row + direction, fromPos.col⟩).isNone = true then true
  else if dx.natAbs = 1 ∧ dy = direction ∧
      (Option.any (fun t => t.color != piece.color) target) = true then true
  else false

/-- src/src/utils/chessLogic.ts `isValidPieceMove`. -/
def isValidPieceMove (board : Board) (piece : ChessPiece)
    (fromPos toPos : Pos) : Bool :=
  let dx := toPos.col - fromPos.col
  let dy := toPos.row - fromPos.row
  match piece.type with
  | .pawn => isValidPawnMove board piece fromPos toPos dx dy
  | .rook => isValidRookMove board fromPos toPos dx dy
  | .bishop => isValidBishopMove board fromPos toPos dx dy
  | .queen => isValidQueenMove board fromPos toPos dx dy
  | .king => isValidKingMove dx dy
  | .knight => isValidKnightMove dx dy

/-- src/src/utils/chessLogic.ts `isValidMove`. -/
def isValidMove (board : Board) (fromPos toPos : Pos)
    (shrunkSquares : Finset String) : Bool :=
  if ¬(isValidPosition fromPos = true ∧ isValidPosition toPos = true) then false
  else if positionKey toPos ∈ shrunkSquares then false
  else
    match bget board fromPos with
    | none => false
    | some piece =>
      match bget board toPos with
      | some target =>
        if target.color = piece.color then false
        else isValidPieceMove board piece fromPos toPos
      | none => isValidPieceMove board piece fromPos toPos

/-- src/src/utils/chessLogic.ts `getAllPossibleMoves` (row-major double
scan of origins and destinations). -/
def getAllPossibleMoves (board : Board) (color : PieceColor)
    (shrunkSquares : Finset String) : List Move :=
  allSquares.flatMap (fun fp =>
    match bget board fp with
    | some piece =>
      if piece.color = color then
        allSquares.filterMap (fun tp =>
          if isValidMove board fp tp shrunkSquares then
            some { fromPos := fp, toPos := tp, piece := piece,
                   captured := bget board tp }
          else none)
      else []
    | none => [])

/-- src/src/utils/gameLogic.ts `findKing` (first king of the color in
row-major scan order). -/
def findKing (board : Board) (color : PieceColor) : Option ChessPiece :=
  allSquares.findSome? (fun p =>
    match bget board p with
    | some piece =>
      if piece.type = .king ∧ piece.color = color then some piece else none
    | none => none)

/-- src/src/utils/gameLogic.ts `findKingPosition`. -/
def findKingPosition (board : Board) (color : PieceColor) : Option Pos :=
  allSquares.findSome? (fun p =>
    match bget board p with
    | some piece =>
      if piece.type = .king ∧ piece.color = color then some p else none
    | none => none)

def oppositeColor : PieceColor → PieceColor
  | .white => .black
  | .black => .white

/-- Modelled from the spec: `isSquareAttacked` is imported by
src/src/utils/gameLogic.ts from chessLogic but its definition is not in
the sources; per spec §4.1 a square is attacked if any opposing piece has
a pseudo-legal (non-check-filtered) move onto it. -/
def isSquareAttacked (board : Board) (pos : Pos) (byColor : PieceColor)
    (shrunkSquares : Finset String) : Bool :=
  allSquares.any (fun fp =>
    match bget board fp with
    | some piece =>
      decide (piece.color = byColor) && isValidMove board fp pos shrunkSquares
    | none => false)

/-- Modelled from the spec: `isInCheck` is imported by gameLogic.ts but
not defined in the sources; per spec §4.1 the king position for the color
is located and tested for attack by the opposing color.  A color with no
king on the board is not "in check" (the missing-king fallback of §4.1
takes precedence elsewhere). -/
def isInCheck (board : Board) (color : PieceColor)
    (shrunkSquares : Finset String) : Bool :=
  match findKingPosition board color with
  | none => false
  | some kp => isSquareAttacked board kp (oppositeColor color) shrunkSquares

/-- The hypothetical-move board built by `getComputerMove` in
src/src/utils/gameLogic.ts (destination receives the moved piece, origin
is cleared). -/
def boardAfterMove (board : Board) (m : Move) : Board :=
  bset (bset board m.toPos (some m.piece)) m.fromPos none

/-- Modelled from the spec: `getLegalMoves` is imported by gameLogic.ts
but not defined in the sources; per spec §4.1 it is the pseudo-legal
moves filtered to exclude those whose resulting board leaves the mover's
own king in check. -/
def getLegalMoves (board : Board) (color : PieceColor)
    (shrunkSquares : Finset String) : List Move :=
  (getAllPossibleMoves board color shrunkSquares).filter
    (fun m => !(isInCheck (boardAfterMove board m) color shrunkSquares))

/-- Modelled from the spec: `isCheckmate` (no legal moves and in check). -/
def isCheckmate (board : Board) (color : PieceColor)
    (shrunkSquares : Finset String) : Bool :=
  decide (getLegalMoves board color shrunkSquares = []) &&
    isInCheck board color shrunkSquares

/-- Modelled from the spec: `isStalemate` (no legal moves and not in
check). -/
def isStalemate (board : Board) (color : PieceColor)
    (shrunkSquares : Finset String) : Bool :=
  decide (getLegalMoves board color shrunkSquares = []) &&
    !(isInCheck board color shrunkSquares)

-- ---------------------------------------------------------------------
-- src/src/utils/powerupLogic.ts
-- ---------------------------------------------------------------------

/-- `powerUps.findIndex(...)` + `splice(index, 1)` of `collectPowerUp`:
the first power-up at the position together with the list without it. -/
def removeFirstPowerUpAt : List PowerUp → Pos → Option (PowerUp × List PowerUp)
  | [], _ => none
  | p :: rest, pos =>
    if p.position.row = pos.row ∧ p.position.col = pos.col then some (p, rest)
    else
      match removeFirstPowerUpAt rest pos with
      | some (q, l) => some (q, p :: l)
      | none => none

/-- src/src/utils/powerupLogic.ts `collectPowerUp`. -/
def collectPowerUp (gameState : GameState) (position : Pos)
    (player : PieceColor) : GameState :=
  match removeFirstPowerUpAt gameState.powerUps position with
  | none => gameState
  | some (powerUp, newPowerUps) =>
    if (gameState.playerPowerUps.get player).isSome then gameState
    else
      { gameState with
        powerUps := newPowerUps,
        playerPowerUps := gameState.playerPowerUps.set player (some powerUp) }

/-- src/src/utils/powerupLogic.ts `usePowerUp`. -/
def usePowerUp (gameState : GameState) (player : PieceColor)
    (powerUpType : PowerUpType) : GameState :=
  match gameState.playerPowerUps.get player with
  | none => gameState
  | some powerUp =>
    if powerUp.type ≠ powerUpType then gameState
    else { gameState with playerPowerUps := gameState.playerPowerUps.set player none }

/-- src/src/utils/powerupLogic.ts `isNearKing`. -/
def isNearKing (gameState : GameState) (pos : Pos) : Bool :=
  allSquares.any (fun q =>
    match bget gameState.board q with
    | some piece =>
      decide (piece.type = .king ∧ (pos.row - q.row).natAbs ≤ 1 ∧
        (pos.col - q.col).natAbs ≤ 1)
    | none => false)

/-- src/src/utils/powerupLogic.ts `findSafePowerUpPosition`; the
`Math.random()` index draw is the `rng` parameter. -/
def findSafePowerUpPosition (rng : Nat) (gameState : GameState) : Option Pos :=
  let availableSquares := allSquares.filter (fun pos =>
    decide (positionKey pos ∉ gameState.shrunkSquares) &&
    (bget gameState.board pos).isNone &&
    !(isNearKing gameState pos) &&
    !(gameState.powerUps.any (fun p =>
        decide (p.position.row = pos.row ∧ p.position.col = pos.col))))
  if availableSquares.isEmpty then none
  else availableSquares[rng % availableSquares.length]?

def powerUpTypeName : PowerUpType → String
  | .teleport => "teleport"
  | .shield => "shield"
  | .extraMove => "extraMove"
  | .trap => "trap"

/-- src/src/utils/powerupLogic.ts `createRandomPowerUp`; `rngT` draws the
type, `rngP` the square, `now` stands for `Date.now()`. -/
def createRandomPowerUp (rngT rngP now : Nat) (gameState : GameState) :
    Option PowerUp :=
  let powerUpTypes : List PowerUpType := [.teleport, .shield, .extraMove, .trap]
  let randomType := powerUpTypes.getD (rngT % 4) .teleport
  match findSafePowerUpPosition rngP gameState with
  | none => none
  | some position =>
    some { id := "powerup-" ++ powerUpTypeName randomType ++ "-" ++ toString now,
           type := randomType, position := position, turnsUntilDespawn := 3 }

/-- src/src/utils/powerupLogic.ts `getActivePlayers` (colors in order of
first appearance in a row-major scan, as the JS `Set` preserves insertion
order). -/
def getActivePlayers (gameState : GameState) : List PieceColor :=
  allSquares.foldl (fun acc pos =>
    match bget gameState.board pos with
    | some piece => if piece.color ∈ acc then acc else acc ++ [piece.color]
    | none => acc) []

/-- src/src/utils/powerupLogic.ts `spawnPowerUps`; each loop iteration
draws fresh randomness, so `rngT`/`rngP` are indexed by iteration. -/
def spawnPowerUps (rngT rngP : Nat → Nat) (now : Nat)
    (gameState : GameState) : GameState :=
  if gameState.turnCount < 12 ∨ gameState.turnCount % 12 ≠ 0 then gameState
  else
    let activePlayers := getActivePlayers gameState
    let newPowerUps := gameState.powerUps ++
      (activePlayers.enum.filterMap (fun ip =>
        createRandomPowerUp (rngT ip.1) (rngP ip.1) now gameState))
    { gameState with powerUps := newPowerUps }

/-- src/src/utils/powerupLogic.ts `updatePowerUps`. -/
def updatePowerUps (gameState : GameState) : GameState :=
  let newPowerUps :=
    (gameState.powerUps.map (fun powerUp =>
      { powerUp with turnsUntilDespawn := powerUp.turnsUntilDespawn - 1 })).filter
      (fun powerUp => powerUp.turnsUntilDespawn > 0)
  { gameState with powerUps := newPowerUps }

-- ---------------------------------------------------------------------
-- respawnLogic (src/unnamed/part_002)
-- ---------------------------------------------------------------------

/-- part_002 `PIECE_WEIGHTS` (pawn 40, knight 20, bishop 20, rook 20,
queen 5, king 0). -/
def PIECE_WEIGHTS : PieceType → Nat
  | .pawn => 40
  | .knight => 20
  | .bishop => 20
  | .rook => 20
  | .queen => 5
  | .king => 0

/-- The weighted selection pool built by `selectWeightedPiece` from
`Object.entries(PIECE_WEIGHTS)` in insertion order. -/
def weightedTypesPool : List PieceType :=
  [PieceType.pawn, .knight, .bishop, .rook, .queen, .king].flatMap
    (fun t => List.replicate (PIECE_WEIGHTS t) t)

/-- part_002 `selectWeightedPiece`; the `Math.random()` index draw is the
`rng` parameter (`floor(random * length)` becomes `rng % length`). -/
def selectWeightedPiece (rng : Nat) (originalPiece : ChessPiece) : ChessPiece :=
  let selectedType := weightedTypesPool.getD (rng % weightedTypesPool.length) .pawn
  { originalPiece with type := selectedType }

/-- part_002 `createRespawnQueue`: interleave the white and black
captured pieces (in capture order) up to the larger per-color count. -/
def createRespawnQueue (gameState : GameState) : List RespawnEntry :=
  let whitePieces := gameState.capturedPieces.filter (fun p => p.color = .white)
  let blackPieces := gameState.capturedPieces.filter (fun p => p.color = .black)
  let maxPieces := max whitePieces.length blackPieces.length
  (List.range maxPieces).flatMap (fun i =>
    (match whitePieces[i]? with
     | some p => [({ player := PieceColor.white, piece := p } : RespawnEntry)]
     | none => []) ++
    (match blackPieces[i]? with
     | some p => [({ player := PieceColor.black, piece := p } : RespawnEntry)]
     | none => []))

/-- part_002 `isNearPowerUp`. -/
def isNearPowerUp (pos : Pos) (powerUps : List PowerUp) : Bool :=
  powerUps.any (fun powerUp =>
    decide ((pos.row - powerUp.position.row).natAbs ≤ 1 ∧
      (pos.col - powerUp.position.col).natAbs ≤ 1))

/-- part_002 `findSafeSpawnPosition`; the random index draw is `rng`. -/
def findSafeSpawnPosition (rng : Nat) (board : Board)
    (shrunkSquares : Finset String) (powerUps : List PowerUp) : Option Pos :=
  let availableSquares := allSquares.filter (fun pos =>
    decide (positionKey pos ∉ shrunkSquares) &&
    (bget board pos).isNone &&
    !(isNearPowerUp pos powerUps))
  if availableSquares.isEmpty then none
  else availableSquares[rng % availableSquares.length]?

/-- `capturedPieces.findIndex(p => p.id === id)` + `splice(index, 1)`. -/
def removeFirstById : List ChessPiece → String → List ChessPiece
  | [], _ => []
  | p :: rest, pid =>
    if p.id = pid then rest else p :: removeFirstById rest pid

/-- part_002 `processRespawnQueue`; `now` stands for `Date.now()`,
`rngPos` and `rngType` for the two `Math.random()` draws. -/
def processRespawnQueue (now rngPos rngType : Nat)
    (gameState : GameState) : GameState :=
  match gameState.respawnQueue with
  | [] => gameState
  | nextRespawn :: rest =>
    match findSafeSpawnPosition rngPos gameState.board gameState.shrunkSquares
        gameState.powerUps with
    | none =>
      -- no safe position: the dequeued entry is unshifted back to the front
      { gameState with respawnQueue := nextRespawn :: rest }
    | some safePosition =>
      let respawnedPiece := selectWeightedPiece rngType nextRespawn.piece
      let newBoard := bset gameState.board safePosition
        (some { respawnedPiece with
                id := respawnedPiece.id ++ "-respawn-" ++ toString now,
                hasMoved := false,
                turnsWithoutMoving := 0 })
      let newCapturedPieces :=
        removeFirstById gameState.capturedPieces nextRespawn.piece.id
      { gameState with
        board := newBoard,
        capturedPieces := newCapturedPieces,
        respawnQueue := rest }

-- ---------------------------------------------------------------------
-- shrinkLogic (src/unnamed/part_005)
-- ---------------------------------------------------------------------

/-- part_005 `getShrinkBlockPositions`. -/
def getShrinkBlockPositions (level : Nat) : List Pos :=
  if level = 0 then
    [⟨0, 0⟩, ⟨0, 7⟩, ⟨7, 0⟩, ⟨7, 7⟩, ⟨0, 1⟩, ⟨1, 0⟩,
     ⟨0, 6⟩, ⟨1, 7⟩, ⟨6, 0⟩, ⟨7, 1⟩, ⟨7, 6⟩, ⟨6, 7⟩]
  else if level = 1 then
    [⟨0, 2⟩, ⟨0, 3⟩, ⟨0, 4⟩, ⟨0, 5⟩, ⟨2, 0⟩, ⟨3, 0⟩, ⟨4, 0⟩, ⟨5, 0⟩,
     ⟨7, 2⟩, ⟨7, 3⟩, ⟨7, 4⟩, ⟨7, 5⟩, ⟨2, 7⟩, ⟨3, 7⟩, ⟨4, 7⟩, ⟨5, 7⟩]
  else if level = 2 then
    [⟨1, 1⟩, ⟨1, 2⟩, ⟨1, 3⟩, ⟨1, 4⟩, ⟨1, 5⟩, ⟨1, 6⟩, ⟨2, 1⟩, ⟨3, 1⟩,
     ⟨4, 1⟩, ⟨5, 1⟩, ⟨6, 1⟩, ⟨6, 2⟩, ⟨6, 3⟩, ⟨6, 4⟩, ⟨6, 5⟩, ⟨6, 6⟩,
     ⟨2, 6⟩, ⟨3, 6⟩, ⟨4, 6⟩, ⟨5, 6⟩]
  else []

/-- part_005 `generateShrinkBlocks`. -/
def generateShrinkBlocks (gameState : GameState) : List ShrinkBlock :=
  let shrinkLevel := gameState.turnCount / 20
  if shrinkLevel ≥ 3 then []
  else
    (getShrinkBlockPositions shrinkLevel).map (fun pos =>
      { position := pos, turnsUntilShrink := 20, isWarning := true })

/-- All integer values from `lo` to `hi` inclusive, the iteration range
of `for (let d = -radius; d <= radius; d++)`. -/
def intRange (lo hi : Int) : List Int :=
  (List.range (hi + 1 - lo).toNat).map (fun k => lo + (k : Int))

/-- The candidate squares tried by part_005 `findNearestSafeSquare`, in
search order: the 8 adjacent offsets first, then square rings of radius
2 through 7 (row-major within each ring). -/
def safeSquareCandidates (fromPos : Pos) : List Pos :=
  let directions : List (Int × Int) :=
    [(-1, 0), (1, 0), (0, -1), (0, 1), (-1, -1), (-1, 1), (1, -1), (1, 1)]
  let adjacent := directions.map (fun d => Pos.mk (fromPos.row + d.1) (fromPos.col + d.2))
  let rings := (List.range 6).flatMap (fun i =>
    let radius : Int := (i : Int) + 2
    (intRange (-radius) radius).flatMap (fun dr =>
      (intRange (-radius) radius).filterMap (fun dc =>
        if dr.natAbs = radius.toNat ∨ dc.natAbs = radius.toNat then
          some (Pos.mk (fromPos.row + dr) (fromPos.col + dc))
        else none)))
  adjacent ++ rings

/-- part_005 `findNearestSafeSquare`: first candidate square that is on
the board, not shrunk and unoccupied. -/
def findNearestSafeSquare (board : Board) (fromPos : Pos)
    (shrunkSquares : Finset String) : Option Pos :=
  (safeSquareCandidates fromPos).find? (fun pos =>
    isValidPosition pos &&
    decide (positionKey pos ∉ shrunkSquares) &&
    (bget board pos).isNone)

/-- One iteration of the `blocksToShrink.forEach` body of part_005
`applyShrinkBlocks`, acting on the accumulated shrunk-square set and
board. -/
def applyShrinkStep (acc : Finset String × Board) (block : ShrinkBlock) :
    Finset String × Board :=
  let newShrunkSquares := insert (positionKey block.position) acc.1
  let board := acc.2
  match bget board block.position with
  | some piece =>
    if piece.type = .king then
      match findNearestSafeSquare board block.position newShrunkSquares with
      | some safePosition =>
        (newShrunkSquares,
         bset (bset board safePosition (some { piece with isTeleporting := true }))
           block.position none)
      | none =>
        -- emergency: keep the king but mark it
        (newShrunkSquares,
         bset board block.position (some { piece with isEmergency := true }))
    else (newShrunkSquares, bset board block.position none)
  | none => (newShrunkSquares, bset board block.position none)

/-- part_005 `applyShrinkBlocks`. -/
def applyShrinkBlocks (gameState : GameState) : GameState :=
  let blocksToShrink :=
    gameState.shrinkBlocks.filter (fun block => block.turnsUntilShrink ≤ 0)
  let result := blocksToShrink.foldl applyShrinkStep
    (gameState.shrunkSquares, gameState.board)
  let remainingBlocks :=
    gameState.shrinkBlocks.filter (fun block => block.turnsUntilShrink > 0)
  let updatedBlocks := remainingBlocks.map (fun block =>
    { block with turnsUntilShrink := block.turnsUntilShrink - 1 })
  { gameState with
    board := result.2,
    shrunkSquares := result.1,
    shrinkBlocks := updatedBlocks }

/-- The `blocks` local of part_005 `updateAndApplyShrinkBlocks`:
generate fresh warning blocks at cycle position 1, otherwise decrement
the countdowns of the existing blocks. -/
def updatedShrinkBlocks (gameState : GameState) : List ShrinkBlock :=
  let shrinkCycle : Nat := 12
  let cyclePosition := gameState.turnCount % shrinkCycle
  let shrinkLevel := gameState.turnCount / shrinkCycle
  if cyclePosition = 1 ∧ shrinkLevel < 3 then
    (generateShrinkBlocks
      { gameState with turnCount := shrinkLevel * shrinkCycle }).map
      (fun block =>
        { block with turnsUntilShrink := (shrinkCycle : Int) - 5, isWarning := true })
  else if gameState.shrinkBlocks ≠ [] then
    gameState.shrinkBlocks.map (fun block =>
      { block with turnsUntilShrink := block.turnsUntilShrink - 1 })
  else gameState.shrinkBlocks

/-- part_005 `updateAndApplyShrinkBlocks` (12-turn cycle). -/
def updateAndApplyShrinkBlocks (gameState : GameState) : GameState :=
  let blocks := updatedShrinkBlocks gameState
  let blocksToApply := blocks.filter (fun block => block.turnsUntilShrink ≤ 0)
  if blocksToApply ≠ [] then
    let newGameState := applyShrinkBlocks { gameState with shrinkBlocks := blocks }
    { newGameState with
      shrinkBlocks := blocks.filter (fun block => block.turnsUntilShrink > 0) }
  else { gameState with shrinkBlocks := blocks }

-- ---------------------------------------------------------------------
-- src/src/utils/transformationLogic.ts
-- ---------------------------------------------------------------------

/-- A JS-`Set`-like append that keeps insertion order and drops
duplicates, used by `combineMovementPatterns`. -/
def setAdd (l : List PieceType) (t : PieceType) : List PieceType :=
  if t ∈ l then l else l ++ [t]

/-- src/src/utils/transformationLogic.ts `combineMovementPatterns`. -/
def combineMovementPatterns (type1 type2 : PieceType) : List PieceType :=
  let patterns := setAdd (setAdd [] type1) type2
  let patterns :=
    if PieceType.knight ∈ patterns ∧ PieceType.bishop ∈ patterns then
      setAdd patterns .queen
    else patterns
  let patterns :=
    if PieceType.rook ∈ patterns ∧ PieceType.bishop ∈ patterns then
      setAdd patterns .queen
    else patterns
  let patterns :=
    if PieceType.pawn ∈ patterns ∧ PieceType.knight ∈ patterns then
      setAdd patterns .knight
    else patterns
  patterns

/-- src/src/utils/transformationLogic.ts `checkFusion`; `now` stands for
`Date.now()` in the generated fusion id.  (The square holds the very
piece being examined, so the id test always matches and the function
returns `null` on every call the engine makes.) -/
def checkFusion (now : Nat) (board : Board) (position : Pos)
    (piece : ChessPiece) : Option ChessPiece :=
  match bget board position with
  | none => none
  | some piecesOnSquare =>
    if piecesOnSquare.id = piece.id then none
    else
      some { piece with
             isTransformed := true,
             transformationType := some .fusion,
             fusionMoves := combineMovementPatterns piece.type piecesOnSquare.type,
             id := piece.id ++ "-fusion-" ++ toString now }

/-- src/src/utils/transformationLogic.ts `getVeteranUpgrade`. -/
def getVeteranUpgrade : PieceType → PieceType
  | .pawn => .knight
  | .knight => .bishop
  | .bishop => .rook
  | .rook => .queen
  | .queen => .queen
  | .king => .king

/-- src/src/utils/transformationLogic.ts `checkVeteranTransformation`
(threshold: 5 turns without moving). -/
def checkVeteranTransformation (piece : ChessPiece) : Option ChessPiece :=
  if piece.turnsWithoutMoving < 5 then none
  else
    let upgradedType := getVeteranUpgrade piece.type
    if upgradedType = piece.type then none
    else
      some { piece with
             type := upgradedType,
             isTransformed := true,
             transformationType := some .veteran,
             turnsWithoutMoving := 0 }

/-- One iteration of the square scan of `processPieceTransformations`:
try fusion, then veteran transformation, writing back into the board. -/
def transformStep (now : Nat) (b : Board) (pos : Pos) : Board :=
  match bget b pos with
  | none => b
  | some piece =>
    match checkFusion now b pos piece with
    | some fusionResult => bset b pos (some fusionResult)
    | none =>
      match checkVeteranTransformation piece with
      | some veteranResult => bset b pos (some veteranResult)
      | none => b

/-- src/src/utils/transformationLogic.ts `processPieceTransformations`
(lines 4-35): a row-major scan transforming every eligible piece. -/
def processPieceTransformations (now : Nat) (gameState : GameState) : GameState :=
  let newBoard := allSquares.foldl (transformStep now) gameState.board
  { gameState with board := newBoard }

-- ---------------------------------------------------------------------
-- src/src/utils/gameLogic.ts
-- ---------------------------------------------------------------------

/-- src/src/utils/gameLogic.ts `createInitialBoard`. -/
def createInitialBoard : Board :=
  let pieceOrder : List PieceType :=
    [.rook, .knight, .bishop, .queen, .king, .bishop, .knight, .rook]
  let colorName : PieceColor → String := fun c =>
    match c with | .white => "white" | .black => "black"
  let typeName : PieceType → String := fun t =>
    match t with
    | .rook => "rook" | .knight => "knight" | .bishop => "bishop"
    | .queen => "queen" | .king => "king" | .pawn => "pawn"
  let backRow : PieceColor → List (Option ChessPiece) := fun color =>
    pieceOrder.enum.map (fun it =>
      some { type := it.2, color := color,
             id := colorName color ++ "-" ++ typeName it.2 ++ "-" ++ toString it.1,
             hasMoved := false })
  let pawnRow : PieceColor → List (Option ChessPiece) := fun color =>
    (List.range 8).map (fun col =>
      some { type := PieceType.pawn, color := color,
             id := colorName color ++ "-pawn-" ++ toString col,
             hasMoved := false })
  let emptyRow : List (Option ChessPiece) := List.replicate 8 none
  [backRow .black, pawnRow .black, emptyRow, emptyRow,
   emptyRow, emptyRow, pawnRow .white, backRow .white]

/-- src/src/utils/gameLogic.ts `createInitialGameState`. -/
def createInitialGameState : GameState :=
  { board := createInitialBoard,
    currentPlayer := .white,
    gamePhase := .playing,
    winner := none,
    shrunkSquares := ∅,
    capturedPieces := [],
    turnCount := 0,
    timeUntilShrink := 20,
    timeUntilRespawn := 15,
    powerUps := [],
    shrinkBlocks := [],
    playerPowerUps := { white := none, black := none },
    respawnQueue := [],
    trapSquares := ∅,
    shieldedPieces := ∅ }

/-- src/src/utils/gameLogic.ts `makeMove` (lines 64-109).  It validates
nothing: the given move is applied unconditionally. -/
def makeMove (gameState : GameState) (move : Move) : GameState :=
  let newBoard := bset (bset gameState.board move.toPos
    (some { move.piece with hasMoved := true })) move.fromPos none
  let capturedPieces :=
    match move.captured with
    | some c => gameState.capturedPieces ++ [c]
    | none => gameState.capturedPieces
  let newGameState := collectPowerUp gameState move.toPos gameState.currentPlayer
  let newRespawnQueue :=
    match move.captured with
    | some _ =>
      createRespawnQueue { newGameState with capturedPieces := capturedPieces }
    | none => newGameState.respawnQueue
  let nextPlayer := oppositeColor gameState.currentPlayer
  { newGameState with
    board := newBoard,
    currentPlayer := nextPlayer,
    capturedPieces := capturedPieces,
    respawnQueue := newRespawnQueue,
    turnCount := gameState.turnCount + 1 }

/-- src/src/utils/gameLogic.ts `checkGameOver` (lines 122-156):
checkmate / stalemate detection with a missing-king fallback that takes
precedence. -/
def checkGameOver (gameState : GameState) : GameState :=
  let whiteInCheckmate := isCheckmate gameState.board .white gameState.shrunkSquares
  let blackInCheckmate := isCheckmate gameState.board .black gameState.shrunkSquares
  let whiteInStalemate := isStalemate gameState.board .white gameState.shrunkSquares
  let blackInStalemate := isStalemate gameState.board .black gameState.shrunkSquares
  let winner0 : Option Winner :=
    if whiteInCheckmate then some (.color .black)
    else if blackInCheckmate then some (.color .white)
    else if whiteInStalemate || blackInStalemate then some .draw
    else none
  let whiteKing := findKing gameState.board .white
  let blackKing := findKing gameState.board .black
  let winner : Option Winner :=
    if whiteKing.isNone ∧ blackKing.isNone then some .draw
    else if whiteKing.isNone then some (.color .black)
    else if blackKing.isNone then some (.color .white)
    else winner0
  { gameState with
    winner := winner,
    gamePhase := if winner.isSome then .gameOver else gameState.gamePhase }

namespace Legacy

/-- `checkGameOver` of the earlier game-logic revision (src/unnamed/
part_004 lines 122-142): missing-king detection only. -/
def checkGameOver (gameState : GameState) : GameState :=
  let whiteKing := findKing gameState.board .white
  let blackKing := findKing gameState.board .black
  let winner : Option Winner :=
    if whiteKing.isNone ∧ blackKing.isNone then none
    else if whiteKing.isNone then some (.color .black)
    else if blackKing.isNone then some (.color .white)
    else none
  { gameState with
    winner := winner,
    gamePhase := if winner.isSome then .gameOver else gameState.gamePhase }

end Legacy

-- ---------------------------------------------------------------------
-- Shared helper lemmas
-- ---------------------------------------------------------------------

theorem applyShrinkStep_fst (acc : Finset String × Board) (block : ShrinkBlock) :
    (applyShrinkStep acc block).1 = insert (positionKey block.position) acc.1 := by
  simp only [applyShrinkStep]
  cases h : bget acc.2 block.position with
  | none => rfl
  | some piece =>
    dsimp only []
    by_cases ht : piece.type = PieceType.king
    · rw [if_pos ht]
      cases hf : findNearestSafeSquare acc.2 block.position
          (insert (positionKey block.position) acc.1) with
      | none => rfl
      | some sp => rfl
    · rw [if_neg ht]

theorem shrunk_subset_foldl (blocks : List ShrinkBlock)
    (acc : Finset String × Board) :
    acc.1 ⊆ (blocks.foldl applyShrinkStep acc).1 := by
  induction blocks generalizing acc with
  | nil => exact Finset.Subset.refl _
  | cons b bs ih =>
    have h1 : acc.1 ⊆ (applyShrinkStep acc b).1 := by
      rw [applyShrinkStep_fst]
      exact Finset.subset_insert _ _
    exact Finset.Subset.trans h1 (ih (applyShrinkStep acc b))

theorem applyShrinkBlocks_shrunk_mono (s : GameState) :
    s.shrunkSquares ⊆ (applyShrinkBlocks s).shrunkSquares := by
  have h := shrunk_subset_foldl
    (s.shrinkBlocks.filter fun block => block.turnsUntilShrink ≤ 0)
    (s.shrunkSquares, s.board)
  exact h

theorem subset_applyShrinkBlocks_of_eq (s t : GameState)
    (h : t.shrunkSquares = s.shrunkSquares) :
    s.shrunkSquares ⊆ (applyShrinkBlocks t).shrunkSquares := by
  rw [← h]; exact applyShrinkBlocks_shrunk_mono t

theorem collectPowerUp_frame (s : GameState) (pos : Pos) (player : PieceColor) :
    (collectPowerUp s pos player).board = s.board ∧
    (collectPowerUp s pos player).capturedPieces = s.capturedPieces ∧
    (collectPowerUp s pos player).respawnQueue = s.respawnQueue ∧
    (collectPowerUp s pos player).shrunkSquares = s.shrunkSquares ∧
    (collectPowerUp s pos player).turnCount = s.turnCount ∧
    (collectPowerUp s pos player).currentPlayer = s.currentPlayer ∧
    (collectPowerUp s pos player).shrinkBlocks = s.shrinkBlocks := by
  unfold collectPowerUp
  cases h : removeFirstPowerUpAt s.powerUps pos with
  | none => exact ⟨rfl, rfl, rfl, rfl, rfl, rfl, rfl⟩
  | some pr =>
    cases pr with
    | mk powerUp newPowerUps =>
      simp only []
      split <;> exact ⟨rfl, rfl, rfl, rfl, rfl, rfl, rfl⟩

theorem processRespawnQueue_shrunk (now r1 r2 : Nat) (s : GameState) :
    (processRespawnQueue now r1 r2 s).shrunkSquares = s.shrunkSquares := by
  unfold processRespawnQueue
  cases s.respawnQueue with
  | nil => rfl
  | cons e rest =>
    simp only []
    cases findSafeSpawnPosition r1 s.board s.shrunkSquares s.powerUps <;> rfl

theorem spawnPowerUps_frame (rngT rngP : Nat → Nat) (now : Nat) (s : GameState) :
    (spawnPowerUps rngT rngP now s).shrunkSquares = s.shrunkSquares ∧
    (spawnPowerUps rngT rngP now s).playerPowerUps = s.playerPowerUps := by
  unfold spawnPowerUps
  split <;> exact ⟨rfl, rfl⟩

/-- C4: `shrunkSquares` is monotonically non-decreasing: the two shrink
operations only ever add position keys, and every other engine operation
leaves the set untouched. -/
theorem c4_shrunk_monotone (s : GameState) :
    s.shrunkSquares ⊆ (applyShrinkBlocks s).shrunkSquares ∧
    s.shrunkSquares ⊆ (updateAndApplyShrinkBlocks s).shrunkSquares ∧
    (∀ m, (makeMove s m).shrunkSquares = s.shrunkSquares) ∧
    (∀ now r1 r2, (processRespawnQueue now r1 r2 s).shrunkSquares = s.shrunkSquares) ∧
    (∀ now, (processPieceTransformations now s).shrunkSquares = s.shrunkSquares) ∧
    (checkGameOver s).shrunkSquares = s.shrunkSquares ∧
    (Legacy.checkGameOver s).shrunkSquares = s.shrunkSquares ∧
    (∀ rngT rngP now, (spawnPowerUps rngT rngP now s).shrunkSquares = s.shrunkSquares) ∧
    (updatePowerUps s).shrunkSquares = s.shrunkSquares ∧
    (∀ pos c, (collectPowerUp s pos c).shrunkSquares = s.shrunkSquares) ∧
    (∀ c t, (usePowerUp s c t).shrunkSquares = s.shrunkSquares) := by
  refine ⟨?_, ?_, ?_, ?_, ?_, rfl, rfl, ?_, rfl, ?_, ?_⟩
  · exact applyShrinkBlocks_shrunk_mono s
  · unfold updateAndApplyShrinkBlocks
    dsimp only []
    split
    · exact subset_applyShrinkBlocks_of_eq s _ rfl
    · exact Finset.Subset.refl _
  · intro m
    show (collectPowerUp s m.toPos s.currentPlayer).shrunkSquares = s.shrunkSquares
    exact (collectPowerUp_frame s m.toPos s.currentPlayer).2.2.2.1
  · intro now r1 r2
    exact processRespawnQueue_shrunk now r1 r2 s
  · intro now
    unfold processPieceTransformations
    rfl
  · intro rngT rngP now
    exact (spawnPowerUps_frame rngT rngP now s).1
  · intro pos c
    exact (collectPowerUp_frame s pos c).2.2.2.1
  · intro c t
    unfold usePowerUp
    cases s.playerPowerUps.get c with
    | none => rfl
    | some pu =>
      simp only []
      split <;> rfl

/-- C10: `checkGameOver` (both the current and the legacy revision) only
recomputes `winner` and `gamePhase`; every other field of the state is
returned unchanged. -/
theorem c10_checkGameOver_frame (s : GameState) :
    (checkGameOver s).board = s.board ∧
    (checkGameOver s).currentPlayer = s.currentPlayer ∧
    (checkGameOver s).turnCount = s.turnCount ∧
    (checkGameOver s).shrunkSquares = s.shrunkSquares ∧
    (checkGameOver s).capturedPieces = s.capturedPieces ∧
    (checkGameOver s).powerUps = s.powerUps ∧
    (checkGameOver s).playerPowerUps = s.playerPowerUps ∧
    (checkGameOver s).shrinkBlocks = s.shrinkBlocks ∧
    (checkGameOver s).respawnQueue = s.respawnQueue ∧
    (checkGameOver s).trapSquares = s.trapSquares ∧
    (checkGameOver s).shieldedPieces = s.shieldedPieces ∧
    (checkGameOver s).timeUntilShrink = s.timeUntilShrink ∧
    (checkGameOver s).timeUntilRespawn = s.timeUntilRespawn ∧
    (Legacy.checkGameOver s).board = s.board ∧
    (Legacy.checkGameOver s).currentPlayer = s.currentPlayer ∧
    (Legacy.checkGameOver s).turnCount = s.turnCount ∧
    (Legacy.checkGameOver s).shrunkSquares = s.shrunkSquares ∧
    (Legacy.checkGameOver s).capturedPieces = s.capturedPieces ∧
    (Legacy.checkGameOver s).powerUps = s.powerUps ∧
    (Legacy.checkGameOver s).playerPowerUps = s.playerPowerUps ∧
    (Legacy.checkGameOver s).shrinkBlocks = s.shrinkBlocks ∧
    (Legacy.checkGameOver s).respawnQueue = s.respawnQueue ∧
    (Legacy.checkGameOver s).trapSquares = s.trapSquares ∧
    (Legacy.checkGameOver s).shieldedPieces = s.shieldedPieces := by
  exact ⟨rfl, rfl, rfl, rfl, rfl, rfl, rfl, rfl, rfl, rfl, rfl, rfl, rfl,
         rfl, rfl, rfl, rfl, rfl, rfl, rfl, rfl, rfl, rfl, rfl⟩

/-- C6: the respawn replacement type is drawn from the weighted pool
(pawn 40 / knight 20 / bishop 20 / rook 20 / queen 5 / king 0), is never
a king for any random draw, does not depend on the captured piece, and
the replacement keeps the original owner's color. -/
theorem c6_selectWeightedPiece_spec :
    (∀ rng p, (selectWeightedPiece rng p).type ≠ .king) ∧
    (∀ rng p, (selectWeightedPiece rng p).color = p.color) ∧
    (∀ rng p q, (selectWeightedPiece rng p).type = (selectWeightedPiece rng q).type) ∧
    weightedTypesPool.count .pawn = PIECE_WEIGHTS .pawn ∧
    weightedTypesPool.count .knight = PIECE_WEIGHTS .knight ∧
    weightedTypesPool.count .bishop = PIECE_WEIGHTS .bishop ∧
    weightedTypesPool.count .rook = PIECE_WEIGHTS .rook ∧
    weightedTypesPool.count .queen = PIECE_WEIGHTS .queen ∧
    weightedTypesPool.count .king = PIECE_WEIGHTS .king := by
  refine ⟨?_, fun rng p => rfl, fun rng p q => rfl,
    by decide, by decide, by decide, by decide, by decide, by decide⟩
  intro rng p
  show weightedTypesPool.getD (rng % weightedTypesPool.length) .pawn ≠ .king
  have hlen : weightedTypesPool.length = 105 := by decide
  have hlt : rng % weightedTypesPool.length < weightedTypesPool.length := by
    rw [hlen]; exact Nat.mod_lt _ (by omega)
  have hmem : weightedTypesPool.getD (rng % weightedTypesPool.length) .pawn
      ∈ weightedTypesPool := getD_mem_of_lt _ _ _ hlt
  have hall : ∀ t ∈ weightedTypesPool, t ≠ PieceType.king := by decide
  exact hall _ hmem

theorem PlayerPowerUps.get_set (m : PlayerPowerUps) (c c' : PieceColor)
    (v : Option PowerUp) :
    (m.set c v).get c' = if c' = c then v else m.get c' := by
  cases c <;> cases c' <;> simp [PlayerPowerUps.get, PlayerPowerUps.set]

/-- C7: a color holds at most one power-up (the held slot is a single
optional value); `collectPowerUp` is a complete no-op — the board
power-up is not consumed — when the collector already holds one; and no
engine operation other than `usePowerUp` empties a held slot. -/
theorem c7_one_powerup_per_color :
    (∀ s pos player, (s.playerPowerUps.get player).isSome = true →
      collectPowerUp s pos player = s) ∧
    (∀ s player pu, s.playerPowerUps.get player = some pu →
      (usePowerUp s player pu.type).playerPowerUps.get player = none) ∧
    (∀ s pos player c,
      (collectPowerUp s pos player).playerPowerUps.get c = none →
      s.playerPowerUps.get c = none) ∧
    (∀ s m c, (makeMove s m).playerPowerUps.get c = none →
      s.playerPowerUps.get c = none) ∧
    (∀ s rngT rngP now, (spawnPowerUps rngT rngP now s).playerPowerUps = s.playerPowerUps) ∧
    (∀ s, (updatePowerUps s).playerPowerUps = s.playerPowerUps) ∧
    (∀ s now r1 r2, (processRespawnQueue now r1 r2 s).playerPowerUps = s.playerPowerUps) ∧
    (∀ s, (applyShrinkBlocks s).playerPowerUps = s.playerPowerUps) ∧
    (∀ s, (updateAndApplyShrinkBlocks s).playerPowerUps = s.playerPowerUps) ∧
    (∀ s now, (processPieceTransformations now s).playerPowerUps = s.playerPowerUps) ∧
    (∀ s, (checkGameOver s).playerPowerUps = s.playerPowerUps) := by
  have hcollect : ∀ (s : GameState) (pos : Pos) (player c : PieceColor),
      (collectPowerUp s pos player).playerPowerUps.get c = none →
      s.playerPowerUps.get c = none := by
    intro s pos player c
    unfold collectPowerUp
    cases h : removeFirstPowerUpAt s.powerUps pos with
    | none => exact id
    | some pr =>
      cases pr with
      | mk powerUp newPowerUps =>
        dsimp only []
        split
        · exact id
        · intro hc
          rw [PlayerPowerUps.get_set] at hc
          split at hc
          · exact absurd hc (by simp)
          · exact hc
  refine ⟨?_, ?_, hcollect, ?_, ?_, ?_, ?_, ?_, ?_, ?_, ?_⟩
  · intro s pos player hheld
    unfold collectPowerUp
    cases h : removeFirstPowerUpAt s.powerUps pos with
    | none => rfl
    | some pr =>
      cases pr with
      | mk powerUp newPowerUps =>
        dsimp only []
        rw [if_pos hheld]
  · intro s player pu hheld
    unfold usePowerUp
    rw [hheld]
    dsimp only []
    rw [if_neg (fun h => h rfl), PlayerPowerUps.get_set, if_pos rfl]
  · intro s m c
    exact hcollect s m.toPos s.currentPlayer c
  · intro s rngT rngP now
    exact (spawnPowerUps_frame rngT rngP now s).2
  · intro s; rfl
  · intro s now r1 r2
    unfold processRespawnQueue
    cases s.respawnQueue with
    | nil => rfl
    | cons e rest =>
      dsimp only []
      cases findSafeSpawnPosition r1 s.board s.shrunkSquares s.powerUps <;> rfl
  · intro s
    unfold applyShrinkBlocks
    rfl
  · intro s
    unfold updateAndApplyShrinkBlocks
    dsimp only []
    split
    · unfold applyShrinkBlocks
      rfl
    · rfl
  · intro s now
    unfold processPieceTransformations
    rfl
  · intro s; rfl

-- ---------------------------------------------------------------------
-- C3: pawn movement rules and the opening scenario
-- ---------------------------------------------------------------------

/-- The white double-step opening move (6,4)->(4,4). -/
def c3move1 : Move :=
  { fromPos := ⟨6, 4⟩, toPos := ⟨4, 4⟩,
    piece := { type := .pawn, color := .white, id := "white-pawn-4", hasMoved := false } }

def c3s1 : GameState := makeMove createInitialGameState c3move1

/-- The white single-step opening move (6,4)->(5,4). -/
def c3move2 : Move :=
  { fromPos := ⟨6, 4⟩, toPos := ⟨5, 4⟩,
    piece := { type := .pawn, color := .white, id := "white-pawn-4", hasMoved := false } }

/-- A black reply (1,0)->(2,0) so that white is to move again. -/
def c3move3 : Move :=
  { fromPos := ⟨1, 0⟩, toPos := ⟨2, 0⟩,
    piece := { type := .pawn, color := .black, id := "black-pawn-0", hasMoved := false } }

def c3s2 : GameState := makeMove (makeMove createInitialGameState c3move2) c3move3

/-- C3: pawn validation — forward single step only onto an empty square,
double step only for an unmoved pawn with the intervening square and the
destination both empty, diagonal step only as an enemy capture — and the
concrete opening scenario of the spec. -/
theorem c3_pawn_rules :
    (∀ (board : Board) (piece : ChessPiece) (fPos tPos : Pos),
      isValidPawnMove board piece fPos tPos (tPos.col - fPos.col) (tPos.row - fPos.row) = true ↔
        ((tPos.col - fPos.col = 0 ∧ bget board tPos = none ∧
          (tPos.row - fPos.row = (if piece.color = .white then (-1 : Int) else 1) ∨
           (tPos.row - fPos.row = 2 * (if piece.color = .white then (-1 : Int) else 1) ∧
            piece.hasMoved = false ∧
            bget board ⟨fPos.row + (if piece.color = .white then (-1 : Int) else 1),
              fPos.col⟩ = none))) ∨
         ((tPos.col - fPos.col).natAbs = 1 ∧
          tPos.row - fPos.row = (if piece.color = .white then (-1 : Int) else 1) ∧
          ∃ t, bget board tPos = some t ∧ t.color ≠ piece.color))) ∧
    isValidMove createInitialGameState.board ⟨6, 4⟩ ⟨4, 4⟩
      createInitialGameState.shrunkSquares = true ∧
    isValidMove c3s1.board ⟨1, 4⟩ ⟨3, 4⟩ c3s1.shrunkSquares = true ∧
    isValidMove createInitialGameState.board ⟨6, 4⟩ ⟨5, 4⟩
      createInitialGameState.shrunkSquares = true ∧
    isValidMove c3s2.board ⟨5, 4⟩ ⟨4, 4⟩ c3s2.shrunkSquares = true ∧
    (bget c3s2.board ⟨5, 4⟩).map ChessPiece.hasMoved = some true ∧
    isValidMove createInitialGameState.board ⟨6, 4⟩ ⟨3, 4⟩
      createInitialGameState.shrunkSquares = false := by
  refine ⟨?_, by decide, by decide, by decide, by decide, by decide, by decide⟩
  intro board piece fPos tPos
  unfold isValidPawnMove
  cases htgt : bget board tPos with
  | none =>
    simp only [htgt, Option.isSome_none, Option.isNone_none, Option.any_none]
    split_ifs <;> simp_all
  | some t =>
    simp only [htgt, Option.isSome_some, Option.isNone_some, Option.any_some]
    split_ifs <;> simp_all

-- ---------------------------------------------------------------------
-- C1: illegal moves, makeMove and isValidMove
-- ---------------------------------------------------------------------

/-- A move that is illegal per the movement rules: a pawn triple step
(6,4)->(3,4) from the initial position. -/
def c1IllegalMove : Move :=
  { fromPos := ⟨6, 4⟩, toPos := ⟨3, 4⟩,
    piece := { type := .pawn, color := .white, id := "white-pawn-4", hasMoved := false } }

/-- C1 counterexample: the pawn triple step (6,4)->(3,4) is rejected by
`isValidMove`, yet `makeMove` applied to it does NOT return the state
unchanged — it applies the move anyway (in particular `turnCount`
changes), so move application is not a no-op on illegal moves. -/
theorem c1_counterexample :
    isValidMove createInitialGameState.board ⟨6, 4⟩ ⟨3, 4⟩
      createInitialGameState.shrunkSquares = false ∧
    makeMove createInitialGameState c1IllegalMove ≠ createInitialGameState := by
  refine ⟨by decide, fun h => ?_⟩
  exact absurd (congrArg GameState.turnCount h) (by decide)

/-- C1 amended: `makeMove` never raises an error (it is a total
function) but is not a no-op on illegal input — it applies any given
move unconditionally, advancing `turnCount` and switching the player;
rejection of illegal moves (shrunk destination, own-color destination,
wrong movement pattern) is instead performed by `isValidMove`, which the
callers use to pre-validate. -/
theorem c1_amended :
    (∀ s m, (makeMove s m).turnCount = s.turnCount + 1 ∧
      (makeMove s m).currentPlayer = oppositeColor s.currentPlayer) ∧
    (∀ (board : Board) (fPos tPos : Pos) (shrunk : Finset String),
      positionKey tPos ∈ shrunk → isValidMove board fPos tPos shrunk = false) ∧
    (∀ (board : Board) (fPos tPos : Pos) (shrunk : Finset String) piece target,
      bget board fPos = some piece → bget board tPos = some target →
      target.color = piece.color → isValidMove board fPos tPos shrunk = false) ∧
    (∀ (board : Board) (fPos tPos : Pos) (shrunk : Finset String) piece,
      bget board fPos = some piece →
      isValidPieceMove board piece fPos tPos = false →
      isValidMove board fPos tPos shrunk = false) := by
  refine ⟨fun s m => ⟨rfl, rfl⟩, ?_, ?_, ?_⟩
  · intro board fPos tPos shrunk hmem
    unfold isValidMove
    simp [hmem]
  · intro board fPos tPos shrunk piece target hf ht hcol
    unfold isValidMove
    simp [hf, ht, hcol]
  · intro board fPos tPos shrunk piece hf hpm
    unfold isValidMove
    cases h2 : bget board tPos <;> simp [hf, h2, hpm]

/-- Witness for the amended C1 theorem at concrete inputs: the illegal
triple step still advances the turn, a shrunk destination is rejected, a
destination holding an own-color piece is rejected, and a
wrong-pattern pawn move is rejected. -/
theorem c1_witness :
    (makeMove createInitialGameState c1IllegalMove).turnCount = 1 ∧
    isValidMove createInitialGameState.board ⟨6, 0⟩ ⟨5, 0⟩
      ({"5-0"} : Finset String) = false ∧
    isValidMove createInitialGameState.board ⟨7, 0⟩ ⟨7, 1⟩ ∅ = false ∧
    isValidMove createInitialGameState.board ⟨6, 0⟩ ⟨3, 0⟩ ∅ = false := by
  refine ⟨(c1_amended.1 createInitialGameState c1IllegalMove).1,
    c1_amended.2.1 createInitialGameState.board ⟨6, 0⟩ ⟨5, 0⟩ _ (by decide),
    c1_amended.2.2.1 createInitialGameState.board ⟨7, 0⟩ ⟨7, 1⟩ ∅
      { type := .rook, color := .white, id := "white-rook-0", hasMoved := false }
      { type := .knight, color := .white, id := "white-knight-1", hasMoved := false }
      (by decide) (by decide) rfl,
    c1_amended.2.2.2 createInitialGameState.board ⟨6, 0⟩ ⟨3, 0⟩ ∅
      { type := .pawn, color := .white, id := "white-pawn-0", hasMoved := false }
      (by decide) (by decide)⟩

-- ---------------------------------------------------------------------
-- C5: the respawn queue never loses an entry
-- ---------------------------------------------------------------------

theorem length_flatMap' {α β : Type} (l : List α) (f : α → List β) :
    (l.flatMap f).length = (l.map (fun a => (f a).length)).sum := by
  induction l with
  | nil => rfl
  | cons a t ih => simp [List.flatMap_cons, ih]

theorem sum_two_indicators (n k1 k2 : Nat) :
    ((List.range n).map
      (fun i => (if i < k1 then 1 else 0) + (if i < k2 then 1 else 0))).sum =
    min n k1 + min n k2 := by
  induction n with
  | zero => simp
  | succ n ih =>
    rw [List.range_succ, List.map_append, List.sum_append, ih]
    by_cases h1 : n < k1 <;> by_cases h2 : n < k2 <;> simp [h1, h2] <;> omega

theorem filter_color_partition (l : List ChessPiece) :
    (l.filter (fun p => p.color = PieceColor.white)).length +
    (l.filter (fun p => p.color = PieceColor.black)).length = l.length := by
  induction l with
  | nil => rfl
  | cons p t ih =>
    cases hc : p.color <;> simp [List.filter_cons, hc] <;> omega

theorem interleave_length (w b : List ChessPiece) :
    ((List.range (max w.length b.length)).flatMap (fun i =>
      (match w[i]? with
       | some p => [({ player := PieceColor.white, piece := p } : RespawnEntry)]
       | none => ([] : List RespawnEntry)) ++
      (match b[i]? with
       | some p => [({ player := PieceColor.black, piece := p } : RespawnEntry)]
       | none => []))).length = w.length + b.length := by
  rw [length_flatMap']
  have hmap : ∀ i ∈ List.range (max w.length b.length),
      ((match w[i]? with
        | some p => [({ player := PieceColor.white, piece := p } : RespawnEntry)]
        | none => ([] : List RespawnEntry)) ++
       (match b[i]? with
        | some p => [({ player := PieceColor.black, piece := p } : RespawnEntry)]
        | none => [])).length =
      (if i < w.length then 1 else 0) + (if i < b.length then 1 else 0) := by
    intro i _
    rw [List.length_append]
    congr 1
    · rcases Nat.lt_or_ge i w.length with h | h
      · rw [List.getElem?_eq_getElem h]
        simp [h]
      · rw [List.getElem?_eq_none h]
        simp [Nat.not_lt_of_ge h]
    · rcases Nat.lt_or_ge i b.length with h | h
      · rw [List.getElem?_eq_getElem h]
        simp [h]
      · rw [List.getElem?_eq_none h]
        simp [Nat.not_lt_of_ge h]
  rw [List.map_congr_left hmap, sum_two_indicators]
  omega

theorem createRespawnQueue_length (s : GameState) :
    (createRespawnQueue s).length = s.capturedPieces.length := by
  unfold createRespawnQueue
  dsimp only []
  exact (interleave_length _ _).trans (filter_color_partition s.capturedPieces)

theorem mem_allSquares_valid : ∀ p ∈ allSquares, isValidPosition p = true := by decide

theorem findSafeSpawnPosition_sound (rng : Nat) (board : Board)
    (shrunkSquares : Finset String) (powerUps : List PowerUp) (p : Pos)
    (h : findSafeSpawnPosition rng board shrunkSquares powerUps = some p) :
    isValidPosition p = true ∧ positionKey p ∉ shrunkSquares ∧ bget board p = none := by
  unfold findSafeSpawnPosition at h
  dsimp only [] at h
  split at h
  · exact absurd h (by simp)
  · have hmem : p ∈ allSquares.filter (fun pos =>
        decide (positionKey pos ∉ shrunkSquares) && (bget board pos).isNone &&
        !(isNearPowerUp pos powerUps)) := by
      exact List.getElem?_mem h
    rw [List.mem_filter] at hmem
    obtain ⟨hall, hpred⟩ := hmem
    simp only [Bool.and_eq_true, Bool.not_eq_true', decide_eq_true_eq,
      Option.isNone_iff_eq_none] at hpred
    exact ⟨mem_allSquares_valid p hall, hpred.1.1, hpred.1.2⟩

/-- C5: the respawn queue never loses an entry.  The rebuilt queue after
a capture is exactly one longer than before (given the maintained
invariant that the queue tracks the captured pieces); a respawn tick on
an empty queue is a no-op; a tick with no safe square returns the state
unchanged (the dequeued entry is back at the front, length unchanged); a
successful tick removes exactly the head and places one piece on a
previously empty square.  At most one dequeue happens per tick by
construction. -/
theorem c5_respawn_queue_safe :
    (∀ s, (createRespawnQueue s).length = s.capturedPieces.length) ∧
    (∀ s m cap, m.captured = some cap →
      s.respawnQueue.length = s.capturedPieces.length →
      (makeMove s m).respawnQueue.length = s.respawnQueue.length + 1) ∧
    (∀ now r1 r2 s, s.respawnQueue = [] →
      processRespawnQueue now r1 r2 s = s) ∧
    (∀ now r1 r2 s e rest, s.respawnQueue = e :: rest →
      findSafeSpawnPosition r1 s.board s.shrunkSquares s.powerUps = none →
      processRespawnQueue now r1 r2 s = s) ∧
    (∀ now r1 r2 s e rest p, Board.WF s.board →
      s.respawnQueue = e :: rest →
      findSafeSpawnPosition r1 s.board s.shrunkSquares s.powerUps = some p →
      (processRespawnQueue now r1 r2 s).respawnQueue = rest ∧
      bget s.board p = none ∧
      bget (processRespawnQueue now r1 r2 s).board p =
        some { selectWeightedPiece r2 e.piece with
               id := (selectWeightedPiece r2 e.piece).id ++ "-respawn-" ++ toString now,
               hasMoved := false,
               turnsWithoutMoving := 0 }) := by
  refine ⟨createRespawnQueue_length, ?_, ?_, ?_, ?_⟩
  · intro s m cap hcap hinv
    unfold makeMove
    dsimp only []
    rw [hcap]
    dsimp only []
    rw [createRespawnQueue_length]
    simp [hinv]
  · intro now r1 r2 s hq
    unfold processRespawnQueue
    rw [hq]
  · intro now r1 r2 s e rest hq hf
    unfold processRespawnQueue
    rw [hq]
    dsimp only []
    rw [hf]
    rw [← hq]
  · intro now r1 r2 s e rest p hwf hq hf
    obtain ⟨hvalid, _, hempty⟩ :=
      findSafeSpawnPosition_sound r1 s.board s.shrunkSquares s.powerUps p hf
    unfold processRespawnQueue
    rw [hq]
    dsimp only []
    rw [hf]
    dsimp only []
    exact ⟨rfl, hempty, bget_bset_same s.board p _ hwf hvalid⟩

/-- A board with every square occupied (a king at (3,3), black pawns
elsewhere), used to exercise the no-safe-square branches. -/
def fullyOccupiedBoard : Board :=
  (List.range 8).map (fun r => (List.range 8).map (fun c =>
    if r = 3 ∧ c = 3 then
      some { type := PieceType.king, color := PieceColor.white, id := "wk" }
    else
      some { type := PieceType.pawn, color := PieceColor.black,
             id := toString r ++ "x" ++ toString c }))

/-- A state whose respawn queue holds one entry, over the initial board. -/
def c5QueueState : GameState :=
  { createInitialGameState with
    respawnQueue :=
      [{ player := .white, piece := { type := .queen, color := .white, id := "wq" } }],
    capturedPieces := [{ type := .queen, color := .white, id := "wq" }] }

/-- The same queue over a fully occupied board: no safe square exists. -/
def c5BlockedState : GameState :=
  { c5QueueState with board := fullyOccupiedBoard }

/-- A capturing opening move: white queen-pawn takes a planted black
piece (only used to exercise the queue-rebuild arithmetic). -/
def c5CaptureMove : Move :=
  { fromPos := ⟨6, 4⟩, toPos := ⟨5, 4⟩,
    piece := { type := .pawn, color := .white, id := "white-pawn-4", hasMoved := false },
    captured := some { type := .knight, color := .black, id := "planted" } }

/-- Witness for C5 at concrete inputs: an empty-queue tick is a no-op, a
blocked tick returns the state unchanged, a successful tick dequeues the
head and places the piece at the drawn square (2,0), and a capture grows
the rebuilt queue by exactly one. -/
theorem c5_witness :
    processRespawnQueue 7 0 0 createInitialGameState = createInitialGameState ∧
    processRespawnQueue 7 0 0 c5BlockedState = c5BlockedState ∧
    (processRespawnQueue 7 0 0 c5QueueState).respawnQueue = [] ∧
    bget (processRespawnQueue 7 0 0 c5QueueState).board ⟨2, 0⟩ =
      some { type := PieceType.pawn, color := PieceColor.white,
             id := "wq-respawn-7", hasMoved := false, turnsWithoutMoving := 0 } ∧
    (makeMove createInitialGameState c5CaptureMove).respawnQueue.length = 1 := by
  have h1 := c5_respawn_queue_safe.2.2.1 7 0 0 createInitialGameState rfl
  have h2 := c5_respawn_queue_safe.2.2.2.1 7 0 0 c5BlockedState
    { player := .white, piece := { type := .queen, color := .white, id := "wq" } } []
    rfl (by decide)
  have h3 := c5_respawn_queue_safe.2.2.2.2 7 0 0 c5QueueState
    { player := .white, piece := { type := .queen, color := .white, id := "wq" } } []
    ⟨2, 0⟩ (by decide) rfl (by decide)
  have h4 := c5_respawn_queue_safe.2.1 createInitialGameState c5CaptureMove
    { type := .knight, color := .black, id := "planted" } rfl rfl
  exact ⟨h1, h2, h3.1, h3.2.2, h4⟩

-- ---------------------------------------------------------------------
-- C2: the legal-move list never contains a self-check move
-- ---------------------------------------------------------------------

/-- C2: every move contained in `getLegalMoves` leaves, when applied to
the board, the mover's own king out of check — this is the move list
the computer player (`getComputerMove`) consumes. -/
theorem c2_legal_moves_no_self_check (board : Board) (color : PieceColor)
    (shrunkSquares : Finset String) (m : Move)
    (hm : m ∈ getLegalMoves board color shrunkSquares) :
    isInCheck (boardAfterMove board m) color shrunkSquares = false := by
  unfold getLegalMoves at hm
  rw [List.mem_filter] at hm
  simpa using hm.2

/-- A two-kings board for exercising the legal-move filter. -/
def c2Board : Board :=
  (List.range 8).map (fun r => (List.range 8).map (fun c =>
    if r = 7 ∧ c = 4 then
      some { type := PieceType.king, color := PieceColor.white, id := "wk" }
    else if r = 0 ∧ c = 4 then
      some { type := PieceType.king, color := PieceColor.black, id := "bk" }
    else none))

/-- A legal white king step on that board. -/
def c2Move : Move :=
  { fromPos := ⟨7, 4⟩, toPos := ⟨6, 4⟩,
    piece := { type := .king, color := .white, id := "wk" }, captured := none }

/-- Witness for C2: the king step (7,4)->(6,4) is in the legal-move list
of the two-kings board and its resulting board leaves white out of
check. -/
theorem c2_witness :
    isInCheck (boardAfterMove c2Board c2Move) .white ∅ = false :=
  c2_legal_moves_no_self_check c2Board .white ∅ c2Move (by decide)

-- ---------------------------------------------------------------------
-- C8: king relocation / emergency when a shrink countdown hits zero
-- ---------------------------------------------------------------------

theorem bget_some_valid (b : Board) (p : Pos) (x : ChessPiece)
    (h : bget b p = some x) : isValidPosition p = true := by
  unfold bget at h
  split at h
  · assumption
  · exact absurd h (by simp)

theorem mem_allSquares_of_valid (p : Pos) (h : isValidPosition p = true) :
    p ∈ allSquares := by
  unfold isValidPosition at h
  simp only [decide_eq_true_eq] at h
  have hrow : p.row.toNat ∈ List.range 8 := by rw [List.mem_range]; omega
  have hcol : p.col.toNat ∈ List.range 8 := by rw [List.mem_range]; omega
  have hp : p = Pos.mk ((p.row.toNat : Nat) : Int) ((p.col.toNat : Nat) : Int) := by
    cases p with
    | mk r c =>
      simp only at h
      simp only [Pos.mk.injEq]
      constructor <;> omega
  rw [hp]
  have hmem : ∀ a ∈ List.range 8, ∀ b ∈ List.range 8,
      Pos.mk (a : Int) (b : Int) ∈ allSquares := by decide
  exact hmem p.row.toNat hrow p.col.toNat hcol

theorem findNearestSafeSquare_sound (board : Board) (fromPos : Pos)
    (shrunkSquares : Finset String) (p : Pos)
    (h : findNearestSafeSquare board fromPos shrunkSquares = some p) :
    isValidPosition p = true ∧ positionKey p ∉ shrunkSquares ∧ bget board p = none := by
  unfold findNearestSafeSquare at h
  have hp := List.find?_some h
  simp only [Bool.and_eq_true, decide_eq_true_eq, Option.isNone_iff_eq_none] at hp
  exact ⟨hp.1.1, hp.1.2, hp.2⟩

/-- C8: when the only due shrink block sits on a king's square, the king
is relocated to the square found by the adjacent-then-rings search
(which is unoccupied and not shrunk) and its old square is cleared; if
no unoccupied non-shrunk square exists anywhere else on the board, the
tick still completes with the king kept on its square and flagged
`isEmergency` — a king is never removed by shrinking.  The square's key
is added to `shrunkSquares` in both cases. -/
theorem c8_king_shrink_safety (s : GameState) (blk : ShrinkBlock) (k : ChessPiece)
    (hwf : Board.WF s.board)
    (hfilter : s.shrinkBlocks.filter (fun b => b.turnsUntilShrink ≤ 0) = [blk])
    (hk : bget s.board blk.position = some k)
    (htype : k.type = .king) :
    positionKey blk.position ∈ (applyShrinkBlocks s).shrunkSquares ∧
    ((∀ p ∈ allSquares, p ≠ blk.position →
        ¬(positionKey p ∉ insert (positionKey blk.position) s.shrunkSquares ∧
          bget s.board p = none)) →
      bget (applyShrinkBlocks s).board blk.position =
        some { k with isEmergency := true }) ∧
    (∀ p, findNearestSafeSquare s.board blk.position
        (insert (positionKey blk.position) s.shrunkSquares) = some p →
      bget (applyShrinkBlocks s).board p = some { k with isTeleporting := true } ∧
      bget (applyShrinkBlocks s).board blk.position = none ∧
      bget s.board p = none) := by
  have hvalidblk : isValidPosition blk.position = true := bget_some_valid _ _ _ hk
  have hstep : (s.shrinkBlocks.filter (fun b => b.turnsUntilShrink ≤ 0)).foldl
      applyShrinkStep (s.shrunkSquares, s.board) =
      applyShrinkStep (s.shrunkSquares, s.board) blk := by
    rw [hfilter]; rfl
  have hshr : (applyShrinkBlocks s).shrunkSquares =
      (applyShrinkStep (s.shrunkSquares, s.board) blk).1 := by
    unfold applyShrinkBlocks
    dsimp only []
    rw [hstep]
  have hboard : (applyShrinkBlocks s).board =
      (applyShrinkStep (s.shrunkSquares, s.board) blk).2 := by
    unfold applyShrinkBlocks
    dsimp only []
    rw [hstep]
  refine ⟨?_, ?_, ?_⟩
  · rw [hshr, applyShrinkStep_fst]
    exact Finset.mem_insert_self _ _
  · intro hall
    have hfind : findNearestSafeSquare s.board blk.position
        (insert (positionKey blk.position) s.shrunkSquares) = none := by
      cases hf : findNearestSafeSquare s.board blk.position
          (insert (positionKey blk.position) s.shrunkSquares) with
      | none => rfl
      | some p =>
        obtain ⟨hv, hns, he⟩ := findNearestSafeSquare_sound _ _ _ _ hf
        have hne : p ≠ blk.position := by
          intro heq
          apply hns
          rw [heq]
          exact Finset.mem_insert_self _ _
        exact absurd ⟨hns, he⟩ (hall p (mem_allSquares_of_valid p hv) hne)
    rw [hboard]
    unfold applyShrinkStep
    dsimp only []
    rw [hk]
    dsimp only []
    rw [if_pos htype, hfind]
    exact bget_bset_same s.board blk.position _ hwf hvalidblk
  · intro p hfind
    obtain ⟨hv, hns, he⟩ := findNearestSafeSquare_sound _ _ _ _ hfind
    have hne : p ≠ blk.position := by
      intro heq
      apply hns
      rw [heq]
      exact Finset.mem_insert_self _ _
    rw [hboard]
    unfold applyShrinkStep
    dsimp only []
    rw [hk]
    dsimp only []
    rw [if_pos htype, hfind]
    refine ⟨?_, ?_, he⟩
    · rw [bget_bset_ne _ _ _ _ (Ne.symm hne)]
      exact bget_bset_same s.board p _ hwf hv
    · exact bget_bset_same _ blk.position none
        (WF_bset _ _ _ hwf) hvalidblk

/-- The fully occupied board with a due shrink block on the king. -/
def c8State : GameState :=
  { createInitialGameState with
    board := fullyOccupiedBoard,
    shrinkBlocks := [{ position := ⟨3, 3⟩, turnsUntilShrink := 0, isWarning := true }] }

/-- Witness for C8: on a board with no free square anywhere, the tick
shrinks (3,3) and keeps the king there, flagged as an emergency. -/
theorem c8_witness :
    positionKey (⟨3, 3⟩ : Pos) ∈ (applyShrinkBlocks c8State).shrunkSquares ∧
    bget (applyShrinkBlocks c8State).board ⟨3, 3⟩ =
      some { type := PieceType.king, color := PieceColor.white, id := "wk",
             isEmergency := true } := by
  have h := c8_king_shrink_safety c8State
    { position := ⟨3, 3⟩, turnsUntilShrink := 0, isWarning := true }
    { type := .king, color := .white, id := "wk" }
    (by decide) (by decide) (by decide) rfl
  exact ⟨h.1, h.2.1 (by decide)⟩

-- ---------------------------------------------------------------------
-- C9: piece transformations
-- ---------------------------------------------------------------------

/-- A state on a non-cadence turn (turnCount 1) whose board holds two
stationary white pawns and a stationary white knight. -/
def c9State : GameState :=
  { createInitialGameState with
    turnCount := 1,
    board := (List.range 8).map (fun r => (List.range 8).map (fun c =>
      if r = 4 ∧ c = 0 then
        some { type := PieceType.pawn, color := PieceColor.white, id := "p1",
               turnsWithoutMoving := 5 }
      else if r = 4 ∧ c = 7 then
        some { type := PieceType.pawn, color := PieceColor.white, id := "p2",
               turnsWithoutMoving := 5 }
      else if r = 4 ∧ c = 3 then
        some { type := PieceType.knight, color := PieceColor.white, id := "n1",
               turnsWithoutMoving := 5 }
      else none)) }

/-- C9 counterexample: on turn 1 (no cadence gate fires) a single call
of `processPieceTransformations` upgrades BOTH stationary white pawns
(each deterministically to a knight) and also upgrades the stationary
knight to a bishop — so more than one pawn of a color transforms in one
tick, the choice is not random, and a non-pawn changes type. -/
theorem c9_counterexample :
    c9State.turnCount = 1 ∧
    (bget c9State.board ⟨4, 0⟩).map ChessPiece.type = some .pawn ∧
    (bget c9State.board ⟨4, 7⟩).map ChessPiece.type = some .pawn ∧
    (bget (processPieceTransformations 0 c9State).board ⟨4, 0⟩).map ChessPiece.type =
      some .knight ∧
    (bget (processPieceTransformations 0 c9State).board ⟨4, 7⟩).map ChessPiece.type =
      some .knight ∧
    (bget (processPieceTransformations 0 c9State).board ⟨4, 3⟩).map ChessPiece.type =
      some .bishop ∧
    ¬(allSquares.countP (fun p =>
        decide ((bget c9State.board p).map ChessPiece.type = some .pawn ∧
          ¬((bget (processPieceTransformations 0 c9State).board p).map
              ChessPiece.type = some .pawn))) ≤ 1) := by decide

theorem transformStep_bget_ne (now : Nat) (b : Board) (q pos : Pos)
    (hne : q ≠ pos) : bget (transformStep now b q) pos = bget b pos := by
  unfold transformStep
  cases h : bget b q with
  | none => rfl
  | some piece =>
    dsimp only []
    cases hf : checkFusion now b q piece with
    | some fr => exact bget_bset_ne b q pos _ hne
    | none =>
      dsimp only []
      cases hv : checkVeteranTransformation piece with
      | some vr => exact bget_bset_ne b q pos _ hne
      | none => rfl

theorem transformStep_WF (now : Nat) (b : Board) (q : Pos)
    (h : Board.WF b) : Board.WF (transformStep now b q) := by
  unfold transformStep
  cases hq : bget b q with
  | none => exact h
  | some piece =>
    dsimp only []
    cases hf : checkFusion now b q piece with
    | some fr => exact WF_bset b q _ h
    | none =>
      dsimp only []
      cases hv : checkVeteranTransformation piece with
      | some vr => exact WF_bset b q _ h
      | none => exact h

theorem foldl_transform_notmem (now : Nat) (l : List Pos) (b : Board) (pos : Pos)
    (h : pos ∉ l) :
    bget (l.foldl (transformStep now) b) pos = bget b pos := by
  induction l generalizing b with
  | nil => rfl
  | cons q t ih =>
    rw [List.foldl_cons]
    rw [ih _ (fun hm => h (List.mem_cons_of_mem q hm))]
    exact transformStep_bget_ne now b q pos
      (fun heq => h (heq ▸ List.mem_cons_self q t))

theorem foldl_transform_WF (now : Nat) (l : List Pos) (b : Board)
    (h : Board.WF b) : Board.WF (l.foldl (transformStep now) b) := by
  induction l generalizing b with
  | nil => exact h
  | cons q t ih =>
    rw [List.foldl_cons]
    exact ih _ (transformStep_WF now b q h)

theorem transformStep_bget_same (now : Nat) (b : Board) (pos : Pos)
    (hwf : Board.WF b) (hvalid : isValidPosition pos = true) :
    bget (transformStep now b pos) pos =
      match bget b pos with
      | none => none
      | some piece =>
        match checkVeteranTransformation piece with
        | some vp => some vp
        | none => some piece := by
  unfold transformStep
  cases hsp : bget b pos with
  | none =>
    dsimp only []
    exact hsp
  | some piece =>
    dsimp only []
    have hfus : checkFusion now b pos piece = none := by
      unfold checkFusion
      rw [hsp]
      dsimp only []
      rw [if_pos rfl]
    rw [hfus]
    dsimp only []
    cases hv : checkVeteranTransformation piece with
    | some vp => exact bget_bset_same b pos _ hwf hvalid
    | none => exact hsp

/-- C9 amended: `processPieceTransformations` runs on every call (there
is no turn-count cadence gate) and acts on every board cell
independently and deterministically: a piece with `turnsWithoutMoving`
at least 5 is upgraded one step along pawn→knight→bishop→rook→queen
(`checkVeteranTransformation`; queens and kings stay), its counter
reset; everything else is unchanged.  In particular several pawns of the
same color can transform in one call, the upgrade involves no
randomness, and stationary non-pawns also change type. -/
theorem c9_amended (now : Nat) (s : GameState) (pos : Pos)
    (hwf : Board.WF s.board) (hmem : pos ∈ allSquares) :
    bget (processPieceTransformations now s).board pos =
      match bget s.board pos with
      | none => none
      | some piece =>
        match checkVeteranTransformation piece with
        | some vp => some vp
        | none => some piece := by
  obtain ⟨l1, l2, hdecomp⟩ := List.append_of_mem hmem
  have hnodup : allSquares.Nodup := by decide
  rw [hdecomp] at hnodup
  rw [List.nodup_append] at hnodup
  have hnotl1 : pos ∉ l1 := fun hmem1 =>
    hnodup.2.2 hmem1 (List.mem_cons_self pos l2)
  have hnotl2 : pos ∉ l2 := (List.nodup_cons.mp hnodup.2.1).1
  have hvalid : isValidPosition pos = true := mem_allSquares_valid pos hmem
  unfold processPieceTransformations
  dsimp only []
  rw [hdecomp, List.foldl_append]
  have hb1pos : bget (l1.foldl (transformStep now) s.board) pos = bget s.board pos :=
    foldl_transform_notmem now l1 s.board pos hnotl1
  have hb1wf : Board.WF (l1.foldl (transformStep now) s.board) :=
    foldl_transform_WF now l1 s.board hwf
  rw [List.foldl_cons, foldl_transform_notmem now l2 _ pos hnotl2,
    transformStep_bget_same now _ pos hb1wf hvalid, hb1pos]

/-- Witness for the amended C9 theorem: the stationary pawn at (4,0) of
the concrete state is upgraded in place to a veteran knight. -/
theorem c9_witness :
    Board.WF c9State.board ∧
    bget (processPieceTransformations 0 c9State).board ⟨4, 0⟩ =
      some { type := PieceType.knight, color := PieceColor.white, id := "p1",
             turnsWithoutMoving := 0, isTransformed := true,
             transformationType := some .veteran } := by
  refine ⟨by decide, ?_⟩
  rw [c9_amended 0 c9State ⟨4, 0⟩ (by decide) (by decide)]
  decide

/-- Witness for C3: the double step (6,4)->(4,4) from the initial
position satisfies the pawn rule characterization (unmoved pawn, both
squares empty). -/
theorem c3_witness :
    isValidPawnMove createInitialGameState.board
      { type := .pawn, color := .white, id := "white-pawn-4", hasMoved := false }
      ⟨6, 4⟩ ⟨4, 4⟩ ((4 : Int) - 4) ((4 : Int) - 6) = true :=
  (c3_pawn_rules.1 createInitialGameState.board
      { type := .pawn, color := .white, id := "white-pawn-4", hasMoved := false }
      ⟨6, 4⟩ ⟨4, 4⟩).mpr
    (Or.inl ⟨by decide, by decide, Or.inr ⟨by decide, rfl, by decide⟩⟩)

/-- A captured black rook, used to exercise the weighted respawn draw. -/
def c6Piece : ChessPiece := { type := .rook, color := .black, id := "br" }

/-- Witness for C6 at a concrete draw: the replacement is not a king and
keeps the owner's color. -/
theorem c6_witness :
    (selectWeightedPiece 0 c6Piece).type ≠ PieceType.king ∧
    (selectWeightedPiece 0 c6Piece).color = PieceColor.black :=
  ⟨c6_selectWeightedPiece_spec.1 0 c6Piece,
   c6_selectWeightedPiece_spec.2.1 0 c6Piece⟩

/-- A held shield power-up and a live board power-up at (4,4). -/
def c7PowerUp : PowerUp :=
  { id := "pu1", type := .shield, position := ⟨5, 5⟩, turnsUntilDespawn := 3 }

def c7State : GameState :=
  { createInitialGameState with
    powerUps := [{ id := "pu2", type := .trap, position := ⟨4, 4⟩, turnsUntilDespawn := 3 }],
    playerPowerUps := { white := some c7PowerUp, black := none } }

/-- Witness for C7: with a shield already held, collecting at (4,4) is a
complete no-op; using the shield clears the slot; and a collect on the
initial state leaves the empty slot empty. -/
theorem c7_witness :
    collectPowerUp c7State ⟨4, 4⟩ .white = c7State ∧
    (usePowerUp c7State .white PowerUpType.shield).playerPowerUps.get .white = none ∧
    createInitialGameState.playerPowerUps.get .white = none :=
  ⟨c7_one_powerup_per_color.1 c7State ⟨4, 4⟩ .white (by decide),
   c7_one_powerup_per_color.2.1 c7State .white c7PowerUp rfl,
   c7_one_powerup_per_color.2.2.1 createInitialGameState ⟨4, 4⟩ .white .white (by decide)⟩
